import Mathlib

/-!
Verification of the Keras type-promotion engine
(`keras/backend/common/dtypes.py`) and the dtype-policy resolver
(`keras/dtype_policies/__init__.py`).

Python sets are modelled as duplicate-free lists (construction keeps the
first occurrence); python dicts as association lists; raised exceptions as
an `Except` error type with one constructor per raise site.
-/

namespace KerasDtypes

/-- Errors raised by the promotion engine, one constructor per raise site. -/
inductive PromoErr where
  /-- `_least_upper_bound`: a node has no entry in `LATTICE_UPPER_BOUNDS`. -/
  | unknownDtype (d : String)
  /-- `_least_upper_bound`: no common upper bound; lists the input nodes. -/
  | noPromotionPath (nodes : List String)
  /-- `_least_upper_bound`: more than one least upper bound. -/
  | illFormedLattice (nodes : List String) (options : List String)
  /-- `_respect_weak_type` / `_resolve_weak_type`: dtype outside vocabulary. -/
  | invalidDtype (d : String)
  /-- `_resolve_weak_type`: precision not one of "16", "32", "64". -/
  | invalidPrecision (p : String)
  /-- `_make_lattice_upper_bounds`: cycle detected at node `n`. -/
  | cycleDetected (n : String)
  /-- Python-level failure on an empty argument tuple (`zip(*())` unpacking /
  `set.intersection()` with no arguments). -/
  | emptyArgs
  /-- Iteration bound exhausted (never happens on the actual lattice). -/
  | outOfFuel
  /-- `keras.dtype_policies.get`: identifier cannot be standardized. -/
  | invalidArgument (ident : String)
  deriving DecidableEq, Repr

/-- `BOOL_TYPES` from the source. -/
def BOOL_TYPES : List String := ["bool"]

/-- `INT_TYPES` from the source. -/
def INT_TYPES : List String :=
  ["uint8", "uint16", "uint32", "uint64", "int8", "int16", "int32", "int64"]

/-- `FLOAT_TYPES` from the source. -/
def FLOAT_TYPES : List String := ["bfloat16", "float16", "float32", "float64"]

/-- `COMPLEX_TYPES` from the source. -/
def COMPLEX_TYPES : List String := ["complex64", "complex128"]

/-- `WEAK_TYPES` from the source: the three weak-category sentinels. -/
def WEAK_TYPES : List String := ["int", "float", "complex"]

/-- Modelled from the spec: `ALLOWED_DTYPES` is imported from
`keras.backend.common.variables`, which is not under src/.  Per the spec the
vocabulary of concrete dtype names is the union of the boolean, integer,
floating-point and complex name sets. -/
def ALLOWED_DTYPES : List String :=
  BOOL_TYPES ++ INT_TYPES ++ FLOAT_TYPES ++ COMPLEX_TYPES

/-- `_type_promotion_lattice` from the source: the promotion DAG, mapping each
node to its immediately higher types, as an association list in the source's
dict order.  The weak categories appear under their sentinel names
"int", "float", "complex". -/
def _type_promotion_lattice : List (String × List String) :=
  [ ("bool", ["int"]),
    ("uint8", ["int16", "uint16"]),
    ("uint16", ["int32", "uint32"]),
    ("uint32", ["int64", "uint64"]),
    ("uint64", ["float"]),
    ("int", ["uint8", "int8"]),
    ("int8", ["int16"]),
    ("int16", ["int32"]),
    ("int32", ["int64"]),
    ("int64", ["float"]),
    ("float", ["bfloat16", "float16", "complex"]),
    ("bfloat16", ["float32"]),
    ("float16", ["float32"]),
    ("float32", ["float64", "complex64"]),
    ("float64", ["complex128"]),
    ("complex", ["complex64"]),
    ("complex64", ["complex128"]),
    ("complex128", []) ]

/-- The keys of the promotion lattice, in dict order (the full vocabulary of
lattice nodes: concrete dtypes plus the three weak categories). -/
def latticeKeys : List String := _type_promotion_lattice.map (fun p => p.1)

/-- Dict lookup `lattice[b]` (the lattice is closed, so the default is never
taken on the actual table). -/
def latticeNeighbors (lat : List (String × List String)) (n : String) :
    List String :=
  ((lat.find? (fun p => p.1 == n)).map (fun p => p.2)).getD []

/-- Python set construction from a list, keeping first occurrences, with an
accumulator of elements already seen. -/
def pySetFrom : List String → List String → List String
  | _, [] => []
  | seen, x :: xs =>
    if seen.contains x then pySetFrom seen xs
    else x :: pySetFrom (x :: seen) xs

/-- Python `set(l)` modelled as the duplicate-free list of first occurrences. -/
def pySet (l : List String) : List String := pySetFrom [] l

/-- One iteration of the closure loop in `_make_lattice_upper_bounds`:
`new_upper_bounds = set().union(*(lattice[b] for b in upper_bounds[n]))`. -/
def closureStep (lat : List (String × List String)) (ub : List String) :
    List String :=
  pySet ((ub.map (latticeNeighbors lat)).flatten)

/-- The `while True` loop body of `_make_lattice_upper_bounds` for one node
`n`, with an explicit iteration bound (the loop terminates on any finite
acyclic table; the bound is generous for the 18-node lattice). -/
def closureLoop (lat : List (String × List String)) (n : String)
    (ub : List String) : Nat → Except PromoErr (List String)
  | 0 => .error .outOfFuel
  | fuel + 1 =>
    let nub := closureStep lat ub
    if nub.contains n then
      .error (.cycleDetected n)
    else if nub.all (fun x => ub.contains x) then
      .ok ub
    else
      closureLoop lat n (ub ++ nub.filter (fun x => !ub.contains x)) fuel

/-- `_make_lattice_upper_bounds` from the source: for every lattice node,
its upward closure `{node}` seeded and iterated to a fixed point, failing
with a cycle error if the node reenters its own closure. -/
def _make_lattice_upper_bounds :
    Except PromoErr (List (String × List String)) :=
  let lat := _type_promotion_lattice
  (lat.map (fun p => p.1)).mapM
    (fun n => (closureLoop lat n [n] 32).map (fun ub => (n, ub)))

/-- `LATTICE_UPPER_BOUNDS` from the source: the module-level
`_make_lattice_upper_bounds()` result, written out as the table the builder
computes (see `LATTICE_UPPER_BOUNDS_eq_builder`). -/
def LATTICE_UPPER_BOUNDS : List (String × List String) :=
  [ ("bool",
     ["bool", "int", "uint8", "int8", "int16", "uint16", "int32", "uint32",
      "int64", "uint64", "float", "bfloat16", "float16", "complex", "float32",
      "complex64", "float64", "complex128"]),
    ("uint8",
     ["uint8", "int16", "uint16", "int32", "uint32", "int64", "uint64",
      "float", "bfloat16", "float16", "complex", "float32", "complex64",
      "float64", "complex128"]),
    ("uint16",
     ["uint16", "int32", "uint32", "int64", "uint64", "float", "bfloat16",
      "float16", "complex", "float32", "complex64", "float64", "complex128"]),
    ("uint32",
     ["uint32", "int64", "uint64", "float", "bfloat16", "float16", "complex",
      "float32", "complex64", "float64", "complex128"]),
    ("uint64",
     ["uint64", "float", "bfloat16", "float16", "complex", "float32",
      "complex64", "float64", "complex128"]),
    ("int",
     ["int", "uint8", "int8", "int16", "uint16", "int32", "uint32", "int64",
      "uint64", "float", "bfloat16", "float16", "complex", "float32",
      "complex64", "float64", "complex128"]),
    ("int8",
     ["int8", "int16", "int32", "int64", "float", "bfloat16", "float16",
      "complex", "float32", "complex64", "float64", "complex128"]),
    ("int16",
     ["int16", "int32", "int64", "float", "bfloat16", "float16", "complex",
      "float32", "complex64", "float64", "complex128"]),
    ("int32",
     ["int32", "int64", "float", "bfloat16", "float16", "complex", "float32",
      "complex64", "float64", "complex128"]),
    ("int64",
     ["int64", "float", "bfloat16", "float16", "complex", "float32",
      "complex64", "float64", "complex128"]),
    ("float",
     ["float", "bfloat16", "float16", "complex", "float32", "complex64",
      "float64", "complex128"]),
    ("bfloat16", ["bfloat16", "float32", "float64", "complex64", "complex128"]),
    ("float16", ["float16", "float32", "float64", "complex64", "complex128"]),
    ("float32", ["float32", "float64", "complex64", "complex128"]),
    ("float64", ["float64", "complex128"]),
    ("complex", ["complex", "complex64", "complex128"]),
    ("complex64", ["complex64", "complex128"]),
    ("complex128", ["complex128"]) ]

deriving instance DecidableEq for Except

/-- Dict lookup `UB[n]` in `_least_upper_bound` (`None` models a `KeyError`). -/
def ubLookup (tbl : List (String × List String)) (n : String) :
    Option (List String) :=
  (tbl.find? (fun p => p.1 == n)).map (fun p => p.2)

/-- The upward closure recorded for `n` in the precomputed table
(`UB[n]`, defaulting to the empty set for nodes outside the table). -/
def closureOf (n : String) : List String :=
  (ubLookup LATTICE_UPPER_BOUNDS n).getD []

/-- `set.intersection(*bounds)` over a non-empty list of sets. -/
def interAll : List (List String) → List String
  | [] => []
  | b :: bs => bs.foldl (fun acc ys => acc.filter (fun x => ys.contains x)) b

/-- The local `N = set(nodes)` of `_least_upper_bound`. -/
def lubN (nodes : List String) : List String := pySet nodes

/-- The first node of `N` with no entry in the upper-bound table
(`next(n for n in N if n not in UB)`). -/
def firstUnknown (tbl : List (String × List String)) (nodes : List String) :
    Option String :=
  (lubN nodes).find? (fun n => (ubLookup tbl n).isNone)

/-- The local `CUB = set.intersection(*bounds)` of `_least_upper_bound`. -/
def lubCUB (tbl : List (String × List String)) (nodes : List String) :
    List String :=
  pySet (interAll ((lubN nodes).map (fun n => (ubLookup tbl n).getD [])))

/-- The fast-path set `CUB & N` of `_least_upper_bound`. -/
def lubFast (tbl : List (String × List String)) (nodes : List String) :
    List String :=
  (lubCUB tbl nodes).filter (fun c => (lubN nodes).contains c)

/-- The candidate set `{c for c in CUB if CUB.issubset(UB[c])}`. -/
def lubCandidates (tbl : List (String × List String)) (nodes : List String) :
    List String :=
  (lubCUB tbl nodes).filter
    (fun c => (lubCUB tbl nodes).all (fun x => ((ubLookup tbl c).getD []).contains x))

/-- The local `LUB = (CUB & N) or {c for c in CUB if CUB.issubset(UB[c])}`. -/
def lubSet (tbl : List (String × List String)) (nodes : List String) :
    List String :=
  if (lubFast tbl nodes).isEmpty then lubCandidates tbl nodes
  else lubFast tbl nodes

/-- `_least_upper_bound` generalized over the upper-bound table it reads
(the source reads the module-level `LATTICE_UPPER_BOUNDS`; see
`_least_upper_bound` for that instance). -/
def _least_upper_bound_over (tbl : List (String × List String))
    (nodes : List String) : Except PromoErr String :=
  match firstUnknown tbl nodes with
  | some d => .error (.unknownDtype d)
  | none =>
    if (lubN nodes).isEmpty then .error .emptyArgs
    else
      match lubSet tbl nodes with
      | [c] => .ok c
      | [] => .error (.noPromotionPath nodes)
      | l => .error (.illFormedLattice nodes l)

/-- `_least_upper_bound` from the source. -/
def _least_upper_bound (nodes : List String) : Except PromoErr String :=
  _least_upper_bound_over LATTICE_UPPER_BOUNDS nodes

/-- `in`-containment of python strings (`"float" in dtype`): `pat` occurs as a
contiguous substring of `s`. -/
def strContains (s pat : String) : Bool :=
  (List.range (s.length + 1)).any
    (fun i => pat.toList.isPrefixOf (s.toList.drop i))

/-- `_respect_weak_type` from the source: the weak lattice node of `dtype`
when `weak_type` is set. -/
def _respect_weak_type (dtype : String) (weak_type : Bool) :
    Except PromoErr String :=
  if weak_type then
    if dtype == "bool" then .ok dtype
    else if strContains dtype "float" then .ok "float"
    else if strContains dtype "int" then .ok "int"
    else .error (.invalidDtype dtype)
  else .ok dtype

/-- `_resolve_weak_type` from the source: resolve a weak type at the precision
of `backend.floatx()`. -/
def _resolve_weak_type (dtype : String) (precision : String) :
    Except PromoErr String :=
  if !(ALLOWED_DTYPES ++ WEAK_TYPES).contains dtype then
    .error (.invalidDtype dtype)
  else if !(["16", "32", "64"].contains precision) then
    .error (.invalidPrecision precision)
  else
    let dtype_indicator := if dtype == "bfloat16" then "f" else dtype.take 1
    if dtype_indicator == "b" then .ok "bool"
    else if dtype_indicator == "i" then .ok ("int" ++ precision)
    else if dtype_indicator == "u" then .ok ("uint" ++ precision)
    else .ok ("float" ++ precision)

/-- A value passed to `result_type`: either the python builtin class `int`,
the python builtin class `float` (the weak-type markers recognized by
`_dtype_and_weaktype`), or a dtype name handed to `standardize_dtype`. -/
inductive PyValue where
  | pyIntClass
  | pyFloatClass
  | dtypeName (s : String)
  deriving DecidableEq, Repr

/-- Modelled from the spec: `standardize_dtype` lives in
`keras.backend.common.variables`, which is not under src/.  Per the spec it
normalizes inputs into the canonical vocabulary and fails for unrecognized
input; the python `int` and `float` markers map to backend-chosen concrete
dtypes, passed here as the parameters `intDefault` and `floatDefault`. -/
def standardize_dtype (intDefault floatDefault : String) :
    PyValue → Except PromoErr String
  | .pyIntClass => .ok intDefault
  | .pyFloatClass => .ok floatDefault
  | .dtypeName s =>
    if ALLOWED_DTYPES.contains s then .ok s else .error (.invalidDtype s)

/-- `_dtype_and_weaktype` from the source: a `(dtype, weak_type)` pair, weak
exactly when the value is the python `int` or `float` class. -/
def _dtype_and_weaktype (intDefault floatDefault : String) (v : PyValue) :
    Except PromoErr (String × Bool) :=
  let is_weak_type :=
    match v with
    | .pyIntClass => true
    | .pyFloatClass => true
    | .dtypeName _ => false
  (standardize_dtype intDefault floatDefault v).map
    (fun d => (d, is_weak_type))

/-- The body of `_lattice_result_type` after the classification `zip`, acting
on the list of `(dtype, weak_type)` pairs.  `floatx` is the ambient
`backend.floatx()` value read for the final precision. -/
def _lattice_result_type_pairs (floatx : String)
    (pairs : List (String × Bool)) : Except PromoErr String :=
  match pairs with
  | [] => .error .emptyArgs
  | (d0, w0) :: _ => do
    let dtypes := pairs.map (fun p => p.1)
    let weak_types := pairs.map (fun p => p.2)
    let (out_dtype, out_weak_type) ←
      if pairs.length == 1 then
        pure (d0, w0)
      else if (pySet dtypes).length == 1 && !(weak_types.all (fun w => w)) then
        pure (d0, false)
      else if weak_types.all (fun w => w) then do
        let strong ← dtypes.mapM (fun d => _respect_weak_type d false)
        let out ← _least_upper_bound (pySet strong)
        pure (out, true)
      else do
        let ns ← pairs.mapM (fun p => _respect_weak_type p.1 p.2)
        let out ← _least_upper_bound (pySet ns)
        pure (out, WEAK_TYPES.contains out)
    let out_weak := (out_dtype != "bool") && out_weak_type
    let precision := floatx.takeRight 2
    if out_weak then _resolve_weak_type out_dtype precision
    else pure out_dtype

/-- `_lattice_result_type` from the source: classify every argument, then run
the promotion body. -/
def _lattice_result_type (intDefault floatDefault floatx : String)
    (args : List PyValue) : Except PromoErr String := do
  let pairs ← args.mapM (_dtype_and_weaktype intDefault floatDefault)
  _lattice_result_type_pairs floatx pairs

/-- `result_type` from the source: with no inputs return `backend.floatx()`;
otherwise substitute `backend.floatx()` for every `None` argument and run
`_lattice_result_type`. -/
def result_type (intDefault floatDefault floatx : String)
    (dtypes : List (Option PyValue)) : Except PromoErr String :=
  if dtypes.length == 0 then .ok floatx
  else
    _lattice_result_type intDefault floatDefault floatx
      (dtypes.map (fun arg => arg.getD (.dtypeName floatx)))

end KerasDtypes

namespace KerasDtypePolicies

open KerasDtypes

/-- Modelled from the spec: the policy objects built by
`keras.dtype_policies.dtype_policy` (not under src/): the process-wide
default policy, a `FloatDTypePolicy`, a `QuantizedDTypePolicy`, or the result
of delegating a dict descriptor to the external deserializer. -/
inductive DTypePolicy where
  | defaultPolicy
  | float (name : String)
  | quantized (name : String)
  | deserialized (descriptor : String)
  deriving DecidableEq, Repr

/-- The shapes of identifier `keras.dtype_policies.get` dispatches on:
`None`, an existing policy instance, a dict descriptor, a string, or any
other value (carrying what `backend.standardize_dtype` would return for it,
`none` when standardization fails, and a printable form for the error). -/
inductive PolicyIdentifier where
  | noneId
  | instanceOf (p : DTypePolicy)
  | dictDescriptor (descriptor : String)
  | strId (s : String)
  | otherValue (received : String) (standardized : Option String)
  deriving DecidableEq, Repr

/-- `get` from `keras/dtype_policies/__init__.py`: dispatch an identifier to
a policy object.  The constructors and the deserializer are external and
modelled per the spec; the dispatch itself is the source's. -/
def get : PolicyIdentifier → Except PromoErr DTypePolicy
  | .noneId => .ok .defaultPolicy
  | .instanceOf p => .ok p
  | .dictDescriptor d => .ok (.deserialized d)
  | .strId s =>
    if strContains s "int8" then .ok (.quantized s) else .ok (.float s)
  | .otherValue _ (some d) => .ok (.float d)
  | .otherValue received none => .error (.invalidArgument received)

end KerasDtypePolicies

namespace KerasSpec

/-- The covering edges as listed in spec §4.1, transcribed word for word,
with the spec's `weak-int` / `weak-float` / `weak-complex` written as the
sentinel names `"int"` / `"float"` / `"complex"` (spec §3 fixes exactly these
three sentinels as the weak categories). -/
def latticeEdges : List (String × List String) :=
  [ ("bool", ["int"]),
    ("uint8", ["int16", "uint16"]),
    ("uint16", ["int32", "uint32"]),
    ("uint32", ["int64", "uint64"]),
    ("uint64", ["float"]),
    ("int", ["uint8", "int8"]),
    ("int8", ["int16"]),
    ("int16", ["int32"]),
    ("int32", ["int64"]),
    ("int64", ["float"]),
    ("float", ["bfloat16", "float16", "complex"]),
    ("bfloat16", ["float32"]),
    ("float16", ["float32"]),
    ("float32", ["float64", "complex64"]),
    ("float64", ["complex128"]),
    ("complex", ["complex64"]),
    ("complex64", ["complex128"]),
    ("complex128", []) ]

end KerasSpec

namespace KerasDtypes

/-- The literal table `LATTICE_UPPER_BOUNDS` is exactly what
`_make_lattice_upper_bounds` computes. -/
theorem LATTICE_UPPER_BOUNDS_eq_builder :
    _make_lattice_upper_bounds = .ok LATTICE_UPPER_BOUNDS := by decide

/-- C2: the lattice builder is a pure, deterministic function of the fixed
vocabulary (a closed Lean definition) and its association list coincides,
entry for entry, with the covering edges listed in the spec — the same
eighteen nodes, each with exactly the listed upper neighbors, and nothing
else. -/
theorem C2_lattice_edges_exact :
    _type_promotion_lattice = KerasSpec.latticeEdges := by decide

/-- C6: `_respect_weak_type` returns the dtype unchanged when the weak flag
is false; under a true weak flag it keeps `"bool"` unchanged, sends every
floating-point dtype to `"float"`, every integer dtype (signed or unsigned)
to `"int"`, fails with an invalid-dtype error on the complex family, and
never produces the weak-complex sentinel. -/
theorem C6_respect_weak_type :
    (∀ d : String, _respect_weak_type d false = .ok d) ∧
    (_respect_weak_type "bool" true = .ok "bool") ∧
    (∀ d ∈ FLOAT_TYPES, _respect_weak_type d true = .ok "float") ∧
    (∀ d ∈ INT_TYPES, _respect_weak_type d true = .ok "int") ∧
    (∀ d ∈ COMPLEX_TYPES,
      _respect_weak_type d true = .error (.invalidDtype d)) ∧
    (∀ (d r : String), _respect_weak_type d true = .ok r → r ≠ "complex") := by
  refine ⟨fun d => rfl, by decide, by decide, by decide, by decide, ?_⟩
  intro d r h
  unfold _respect_weak_type at h
  split at h
  · split at h
    · rename_i hb
      rw [Except.ok.injEq] at h
      subst h
      intro hc
      rw [hc] at hb
      cases hb
    · split at h
      · rw [Except.ok.injEq] at h
        subst h
        decide
      · split at h
        · rw [Except.ok.injEq] at h
          subst h
          decide
        · cases h
  · rename_i hfalse
    exact absurd rfl hfalse

/-- Witness for C6 at concrete inputs. -/
theorem C6_respect_weak_type_witness :
    _respect_weak_type "int32" false = .ok "int32" ∧
    _respect_weak_type "float16" true = .ok "float" ∧
    _respect_weak_type "uint8" true = .ok "int" ∧
    _respect_weak_type "complex64" true = .error (.invalidDtype "complex64") ∧
    ("float" : String) ≠ "complex" :=
  ⟨C6_respect_weak_type.1 "int32",
   C6_respect_weak_type.2.2.1 "float16" (by decide),
   C6_respect_weak_type.2.2.2.1 "uint8" (by decide),
   C6_respect_weak_type.2.2.2.2.1 "complex64" (by decide),
   C6_respect_weak_type.2.2.2.2.2 "float16" "float"
     (C6_respect_weak_type.2.2.1 "float16" (by decide))⟩

/-- C7: the listed exact values of `result_type`, for every choice of the
backend defaults and of the ambient `floatx`: two equal `int32` inputs give
`int32`; `int64` with `float64` gives `float64`; `float64` with `complex64`
gives `complex128`; and a concrete `float32` absorbs a weak float literal
(whatever floating dtype the literal standardizes to) without upgrading
precision. -/
theorem C7_result_type_values :
    (∀ intD fltD fx : String,
      result_type intD fltD fx
        [some (.dtypeName "int32"), some (.dtypeName "int32")] =
        .ok "int32") ∧
    (∀ intD fltD fx : String,
      result_type intD fltD fx
        [some (.dtypeName "int64"), some (.dtypeName "float64")] =
        .ok "float64") ∧
    (∀ intD fltD fx : String,
      result_type intD fltD fx
        [some (.dtypeName "float64"), some (.dtypeName "complex64")] =
        .ok "complex128") ∧
    (∀ intD fx : String, ∀ fltD ∈ FLOAT_TYPES,
      result_type intD fltD fx
        [some (.dtypeName "float32"), some .pyFloatClass] = .ok "float32") := by
  refine ⟨fun _ _ _ => rfl, fun _ _ _ => rfl, fun _ _ _ => rfl, ?_⟩
  intro intD fx fltD hf
  fin_cases hf <;> rfl

/-- Witness for C7 at concrete inputs. -/
theorem C7_result_type_values_witness :
    ("float32" : String) ∈ FLOAT_TYPES ∧
    result_type "int32" "float32" "float32"
      [some (.dtypeName "float32"), some .pyFloatClass] = .ok "float32" :=
  ⟨by decide,
   C7_result_type_values.2.2.2 "int32" "float32" "float32" (by decide)⟩

/-- Helper: `pure` in the `Except` monad is `Except.ok`. -/
theorem except_pure_eq_ok {α : Type} (a : α) :
    (pure a : Except PromoErr α) = Except.ok a := rfl

/-- Helper: binding an `ok` value applies the continuation. -/
theorem except_ok_bind {α β : Type} (a : α) (f : α → Except PromoErr β) :
    (Except.ok a : Except PromoErr α) >>= f = f a := rfl

/-- Helper: binding an error propagates it. -/
theorem except_error_bind {α β : Type} (e : PromoErr)
    (f : α → Except PromoErr β) :
    (Except.error e : Except PromoErr α) >>= f = Except.error e := rfl

/-- Helper: `Except.bind` is the monadic bind. -/
theorem except_bind_eq {α β : Type} (x : Except PromoErr α)
    (f : α → Except PromoErr β) : x.bind f = x >>= f := rfl

/-- Helper: `all` of the second components of a pair list, through `map`. -/
theorem all_map_snd (l : List (String × Bool)) :
    (l.map (fun p => p.2)).all (fun w => w) = l.all (fun p => p.2) := by
  induction l with
  | nil => rfl
  | cons x xs ih => simp [ih]

/-- Helper: traversing a list with a false weak flag is the identity. -/
theorem mapM_respect_weak_false (l : List String) :
    l.mapM (fun d => _respect_weak_type d false) = .ok l := by
  induction l with
  | nil => rfl
  | cons x xs ih =>
    rw [List.mapM_cons, ih]
    rfl

/-- Helper: the `mapM` loop with a false weak flag returns the accumulator
reversed onto the remaining list. -/
theorem mapM_loop_respect_weak_false (l acc : List String) :
    List.mapM.loop (fun d => _respect_weak_type d false) l acc =
      .ok (acc.reverse ++ l) := by
  induction l generalizing acc with
  | nil =>
    show (pure acc.reverse : Except PromoErr (List String)) = _
    rw [except_pure_eq_ok]
    simp
  | cons x xs ih =>
    show List.mapM.loop (fun d => _respect_weak_type d false) xs (x :: acc) =
      .ok (acc.reverse ++ x :: xs)
    rw [ih]
    simp

/-- C1: when every input to the promotion body is weak (and there are at
least two), the result is computed in two phases — the least upper bound is
taken over the non-weak (strong) dtype forms of the inputs, and only
afterwards is the weak flag re-applied and resolved at the precision of the
ambient default float dtype; in particular, for each default float precision
p among 16, 32, 64, promoting two weak-int literals returns the signed integer dtype of width p. -/
theorem C1_all_weak_two_phase :
    (∀ (fx : String) (pairs : List (String × Bool)),
      2 ≤ pairs.length → pairs.all (fun p => p.2) = true →
      _lattice_result_type_pairs fx pairs =
        (_least_upper_bound (pySet (pairs.map (fun p => p.1)))).bind
          (fun out =>
            if out != "bool" then _resolve_weak_type out (fx.takeRight 2)
            else .ok out)) ∧
    (∀ fltD : String, ∀ intD ∈ ["int32", "int64"], ∀ p ∈ ["16", "32", "64"],
      result_type intD fltD ("float" ++ p)
        [some .pyIntClass, some .pyIntClass] = .ok ("int" ++ p)) := by
  constructor
  · intro fx pairs hlen hweak
    cases pairs with
    | nil => simp at hlen
    | cons p0 tl =>
      cases tl with
      | nil => simp at hlen
      | cons p1 rest =>
        obtain ⟨d0, w0⟩ := p0
        obtain ⟨d1, w1⟩ := p1
        simp only [List.all_cons, Bool.and_eq_true] at hweak
        obtain ⟨hw0, hw1, hrest⟩ := hweak
        cases hw0
        cases hw1
        have hlen1 :
            (((d0, true) :: (d1, true) :: rest).length == 1) = false := rfl
        have hallr : (rest.map (fun p => p.2)).all (fun w => w) = true := by
          rw [all_map_snd]
          exact hrest
        cases hlub :
            _least_upper_bound (pySet (d0 :: d1 ::
              rest.map (fun p => p.1))) with
        | error e =>
          simp [_lattice_result_type_pairs, hlen1, hallr,
            mapM_loop_respect_weak_false, hlub, except_ok_bind,
            except_error_bind, except_bind_eq, except_pure_eq_ok]
        | ok out =>
          simp [_lattice_result_type_pairs, hlen1, hallr,
            mapM_loop_respect_weak_false, hlub, except_ok_bind,
            except_error_bind, except_bind_eq, except_pure_eq_ok,
            Bool.and_true]
  · intro fltD intD hint p hp
    fin_cases hint <;> fin_cases hp <;> rfl

/-- Witness for C1 at concrete inputs. -/
theorem C1_all_weak_two_phase_witness :
    (2 ≤ ([("int32", true), ("int32", true)] : List (String × Bool)).length ∧
     ([("int32", true), ("int32", true)] : List (String × Bool)).all
       (fun p => p.2) = true ∧
     _lattice_result_type_pairs "float32" [("int32", true), ("int32", true)] =
       (_least_upper_bound (pySet
           ([("int32", true), ("int32", true)].map (fun p => p.1)))).bind
         (fun out =>
           if out != "bool" then
             _resolve_weak_type out ("float32".takeRight 2)
           else .ok out)) ∧
    result_type "int32" "float32" ("float" ++ "32")
      [some .pyIntClass, some .pyIntClass] = .ok ("int" ++ "32") :=
  ⟨⟨by decide, by decide,
    C1_all_weak_two_phase.1 "float32" [("int32", true), ("int32", true)]
      (by decide) (by decide)⟩,
   C1_all_weak_two_phase.2 "float32" "int32" (by decide) "32" (by decide)⟩

/-- Helper: `contains` agrees with membership for string lists. -/
theorem contains_iff_mem (l : List String) (x : String) :
    l.contains x = true ↔ x ∈ l :=
  List.elem_iff

/-- Helper: membership in the seen-accumulator set builder. -/
theorem mem_pySetFrom (x : String) : ∀ (l seen : List String),
    x ∈ pySetFrom seen l ↔ x ∈ l ∧ x ∉ seen := by
  intro l
  induction l with
  | nil =>
    intro seen
    simp [pySetFrom]
  | cons y ys ih =>
    intro seen
    by_cases hy : seen.contains y = true
    · have hyy : y ∈ seen := (contains_iff_mem seen y).mp hy
      have hred : pySetFrom seen (y :: ys) = pySetFrom seen ys := by
        simp [pySetFrom, hy]
        intro h
        exact absurd hyy h
      rw [hred, ih, List.mem_cons]
      constructor
      · rintro ⟨hxy, hxs⟩
        exact ⟨Or.inr hxy, hxs⟩
      · rintro ⟨hor, hxs⟩
        cases hor with
        | inl h =>
          subst h
          exact absurd hyy hxs
        | inr h => exact ⟨h, hxs⟩
    · have hyy : y ∉ seen := fun hm =>
        hy ((contains_iff_mem seen y).mpr hm)
      have hred : pySetFrom seen (y :: ys) =
          y :: pySetFrom (y :: seen) ys := by
        simp [pySetFrom, hy]
        intro h
        exact absurd h hyy
      rw [hred, List.mem_cons, List.mem_cons, ih]
      constructor
      · rintro (rfl | ⟨hxy, hxs⟩)
        · exact ⟨Or.inl rfl, hyy⟩
        · refine ⟨Or.inr hxy, fun hm => hxs (List.mem_cons_of_mem y hm)⟩
      · rintro ⟨rfl | hxy, hxs⟩
        · exact Or.inl rfl
        · by_cases hxy2 : x = y
          · exact Or.inl hxy2
          · refine Or.inr ⟨hxy, fun hm => ?_⟩
            cases List.mem_cons.mp hm with
            | inl h => exact hxy2 h
            | inr h => exact hxs h

/-- Helper: `pySet` preserves membership. -/
theorem mem_pySet (x : String) (l : List String) :
    x ∈ pySet l ↔ x ∈ l := by
  simp [pySet, mem_pySetFrom]

/-- Helper: membership in the fold intersection of a non-empty family. -/
theorem mem_interAll (x : String) : ∀ (bs : List (List String))
    (b : List String),
    x ∈ interAll (b :: bs) ↔ x ∈ b ∧ ∀ ys ∈ bs, x ∈ ys := by
  intro bs
  induction bs with
  | nil =>
    intro b
    simp [interAll]
  | cons ys bs ih =>
    intro b
    show x ∈ interAll ((b.filter (fun a => ys.contains a)) :: bs) ↔ _
    rw [ih]
    simp only [List.mem_filter, List.mem_cons]
    constructor
    · rintro ⟨⟨hb, hys⟩, hall⟩
      refine ⟨hb, ?_⟩
      rintro zs (rfl | hzs)
      · exact (contains_iff_mem _ _).mp hys
      · exact hall zs hzs
    · rintro ⟨hb, hall⟩
      exact ⟨⟨hb, (contains_iff_mem _ _).mpr (hall ys (Or.inl rfl))⟩,
        fun zs hzs => hall zs (Or.inr hzs)⟩

/-- Helper: every member of the common-upper-bound set lies in the recorded
closure of every input node. -/
theorem mem_lubCUB_closure (tbl : List (String × List String))
    (nodes : List String) (x : String) (hx : x ∈ lubCUB tbl nodes) :
    ∀ n ∈ lubN nodes, x ∈ (ubLookup tbl n).getD [] := by
  intro n hn
  rw [lubCUB, mem_pySet] at hx
  cases hl : lubN nodes with
  | nil =>
    rw [hl] at hn
    cases hn
  | cons n0 ns =>
    rw [hl, List.map_cons] at hx
    rw [mem_interAll] at hx
    rw [hl] at hn
    cases List.mem_cons.mp hn with
    | inl h =>
      subst h
      exact hx.1
    | inr h =>
      exact hx.2 _ (List.mem_map_of_mem (fun m => (ubLookup tbl m).getD []) h)

/-- Helper: the fast path `CUB ∩ N` is contained in the candidate set
(every input node that is a common upper bound dominates the whole of CUB). -/
theorem lubFast_subset_candidates (tbl : List (String × List String))
    (nodes : List String) (c : String) (hc : c ∈ lubFast tbl nodes) :
    c ∈ lubCandidates tbl nodes := by
  rw [lubFast, List.mem_filter] at hc
  obtain ⟨hcub, hcn⟩ := hc
  rw [lubCandidates, List.mem_filter]
  refine ⟨hcub, ?_⟩
  rw [List.all_eq_true]
  intro x hx
  exact (contains_iff_mem _ _).mpr
    (mem_lubCUB_closure tbl nodes x hx c ((contains_iff_mem _ _).mp hcn))

/-- Helper: a successful table lookup exhibits a table entry. -/
theorem ubLookup_mem_table (tbl : List (String × List String)) (n : String)
    (l : List String) (h : ubLookup tbl n = some l) : (n, l) ∈ tbl := by
  rw [ubLookup] at h
  cases hf : tbl.find? (fun p => p.1 == n) with
  | none =>
    rw [hf] at h
    cases h
  | some pr =>
    rw [hf] at h
    have h1 : pr.1 = n := by
      have hp := List.find?_some hf
      exact eq_of_beq hp
    have h2 : pr.2 = l := by
      cases h
      rfl
    have hm := List.mem_of_find?_eq_some hf
    have : pr = (n, l) := by
      cases pr
      simp_all
    rw [this] at hm
    exact hm

/-- Helper: every dtype recorded in any closure of the concrete table is a
lattice node. -/
theorem table_values_sub_keys :
    ∀ p ∈ LATTICE_UPPER_BOUNDS, ∀ x ∈ p.2, x ∈ latticeKeys := by decide

/-- Helper: the concrete closure relation is antisymmetric on the lattice
nodes (the lattice is acyclic). -/
theorem closure_antisym :
    ∀ a ∈ latticeKeys, ∀ b ∈ latticeKeys,
      a ∈ closureOf b → b ∈ closureOf a → a = b := by decide

/-- Helper: no concrete dtype name is a weak sentinel. -/
theorem allowed_not_weak : ∀ d ∈ ALLOWED_DTYPES, d ∉ WEAK_TYPES := by decide

/-- Helper: every successful weak-type resolution yields a concrete dtype,
never one of the three weak sentinels. -/
theorem resolve_ok_not_weak (d p v : String)
    (h : _resolve_weak_type d p = .ok v) : v ∉ WEAK_TYPES := by
  unfold _resolve_weak_type at h
  split at h
  · cases h
  · split at h
    · cases h
    · rename_i hallow hprec
      have hpc : (["16", "32", "64"].contains p) = true := by
        cases hc : (["16", "32", "64"].contains p) with
        | true => rfl
        | false =>
          rw [hc] at hprec
          exact absurd rfl hprec
      have hp : p ∈ ["16", "32", "64"] := (contains_iff_mem _ _).mp hpc
      simp only [List.mem_cons, List.not_mem_nil, or_false] at hp
      rcases hp with rfl | rfl | rfl <;>
      · dsimp only [] at h
        split_ifs at h <;>
          (injection h with hv
           subst hv
           decide)

/-- Helper: a classification with a false weak flag yields a vocabulary
dtype. -/
theorem classify_strong_allowed (intD fltD : String) (v : PyValue)
    (d : String) (w : Bool)
    (h : _dtype_and_weaktype intD fltD v = .ok (d, w)) (hw : w = false) :
    d ∈ ALLOWED_DTYPES := by
  subst hw
  cases v with
  | pyIntClass =>
    have h1 : (intD, true) = (d, false) := Except.ok.inj h
    have h2 : true = false := congrArg Prod.snd h1
    exact Bool.noConfusion h2
  | pyFloatClass =>
    have h1 : (fltD, true) = (d, false) := Except.ok.inj h
    have h2 : true = false := congrArg Prod.snd h1
    exact Bool.noConfusion h2
  | dtypeName s =>
    unfold _dtype_and_weaktype standardize_dtype at h
    dsimp only [] at h
    by_cases hs : ALLOWED_DTYPES.contains s = true
    · rw [if_pos hs] at h
      have h1 : (s, false) = (d, false) := Except.ok.inj h
      have hd : s = d := congrArg Prod.fst h1
      subst hd
      exact (contains_iff_mem _ _).mp hs
    · rw [if_neg hs] at h
      simp [Except.map] at h

/-- Helper: classified pair lists only carry vocabulary dtypes on their
strong entries. -/
theorem mapM_classify_strong_allowed (intD fltD : String) :
    ∀ (args : List PyValue) (pairs : List (String × Bool)),
    args.mapM (_dtype_and_weaktype intD fltD) = .ok pairs →
    ∀ pr ∈ pairs, pr.2 = false → pr.1 ∈ ALLOWED_DTYPES := by
  intro args
  induction args with
  | nil =>
    intro pairs h pr hpr hw
    injection h with h1
    subst h1
    cases hpr
  | cons a as ih =>
    intro pairs h pr hpr hw
    rw [List.mapM_cons] at h
    cases hc : _dtype_and_weaktype intD fltD a with
    | error e =>
      rw [hc, except_error_bind] at h
      cases h
    | ok p =>
      rw [hc, except_ok_bind] at h
      cases hm : as.mapM (_dtype_and_weaktype intD fltD) with
      | error e =>
        rw [hm, except_error_bind] at h
        cases h
      | ok ps =>
        rw [hm, except_ok_bind, except_pure_eq_ok] at h
        injection h with h1
        subst h1
        cases List.mem_cons.mp hpr with
        | inl hp =>
          subst hp
          obtain ⟨d, w⟩ := pr
          exact classify_strong_allowed intD fltD a d w hc hw
        | inr hp => exact ih ps hm pr hp hw

/-- Helper: a singleton python set means every element of the underlying
list is that one element. -/
theorem pySet_length_one (l : List String) (h : (pySet l).length = 1) :
    ∀ x ∈ l, ∀ y ∈ l, x = y := by
  intro x hx y hy
  cases hs : pySet l with
  | nil =>
    rw [hs] at h
    cases h
  | cons z t =>
    cases t with
    | nil =>
      have hxz : x = z := by
        have := (mem_pySet x l).mpr hx
        rw [hs] at this
        simpa using this
      have hyz : y = z := by
        have := (mem_pySet y l).mpr hy
        rw [hs] at this
        simpa using this
      rw [hxz, hyz]
    | cons z2 t2 =>
      rw [hs] at h
      simp at h

/-- Helper: the promotion body never returns a weak sentinel when every
strong input is a vocabulary dtype. -/
theorem pairs_result_not_weak (fx : String) (pairs : List (String × Bool))
    (hprop : ∀ pr ∈ pairs, pr.2 = false → pr.1 ∈ ALLOWED_DTYPES)
    (v : String) (h : _lattice_result_type_pairs fx pairs = .ok v) :
    v ∉ WEAK_TYPES := by
  cases pairs with
  | nil => cases h
  | cons p0 rest =>
    obtain ⟨d0, w0⟩ := p0
    unfold _lattice_result_type_pairs at h
    dsimp only [] at h
    split at h
    · -- single input
      simp only [except_pure_eq_ok, except_ok_bind] at h
      split at h
      · exact resolve_ok_not_weak _ _ _ h
      · rename_i hc
        have hv : d0 = v := Except.ok.inj h
        subst hv
        by_cases hb : d0 = "bool"
        · subst hb
          decide
        · have hbne : (d0 != "bool") = true := bne_iff_ne.mpr hb
          rw [hbne, Bool.true_and] at hc
          have hw0 : w0 = false := by
            cases hw : w0 with
            | false => rfl
            | true =>
              rw [hw] at hc
              exact absurd rfl hc
          exact allowed_not_weak d0
            (hprop (d0, w0) (List.mem_cons_self _ _) hw0)
    · split at h
      · -- trivial promotion
        rename_i hc2
        simp only [except_pure_eq_ok, except_ok_bind] at h
        rw [Bool.and_false] at h
        rw [if_neg (by decide)] at h
        have hv : d0 = v := Except.ok.inj h
        subst hv
        rw [Bool.and_eq_true] at hc2
        obtain ⟨hlen1, hnall⟩ := hc2
        have hall : (((d0, w0) :: rest).map (fun p => p.2)).all
            (fun w => w) = false := by
          cases ha : (((d0, w0) :: rest).map (fun p => p.2)).all
              (fun w => w) with
          | false => rfl
          | true =>
            rw [ha] at hnall
            cases hnall
        rw [List.all_eq_false] at hall
        obtain ⟨w', hw'mem, hw'⟩ := hall
        obtain ⟨pr, hprmem, hpr⟩ := List.mem_map.mp hw'mem
        have hw'f : w' = false := by
          cases hwc : w' with
          | false => rfl
          | true =>
            rw [hwc] at hw'
            exact absurd rfl hw'
        have hprw : pr.2 = false := by
          have hpr2 : pr.2 = w' := hpr
          rw [hpr2, hw'f]
        have hallow : pr.1 ∈ ALLOWED_DTYPES := hprop pr hprmem hprw
        have hlen : (pySet (((d0, w0) :: rest).map (fun p => p.1))).length
            = 1 := by
          have := hlen1
          rwa [beq_iff_eq] at this
        have heq : pr.1 = d0 :=
          pySet_length_one _ hlen pr.1
            (List.mem_map_of_mem (fun p => p.1) hprmem) d0
            (by rw [List.map_cons]; exact List.mem_cons_self _ _)
        exact heq ▸ allowed_not_weak pr.1 hallow
      · split at h
        · -- all inputs weak
          rw [mapM_respect_weak_false] at h
          simp only [except_ok_bind] at h
          cases hlub : _least_upper_bound
              (pySet (((d0, w0) :: rest).map (fun p => p.1))) with
          | error e =>
            rw [hlub] at h
            simp only [except_error_bind] at h
            cases h
          | ok out =>
            rw [hlub] at h
            simp only [except_ok_bind, except_pure_eq_ok] at h
            split at h
            · exact resolve_ok_not_weak _ _ _ h
            · rename_i hc
              have hv : out = v := Except.ok.inj h
              subst hv
              rw [Bool.and_true] at hc
              have hob : (out == "bool") = true := by
                cases hbb : out == "bool" with
                | true => rfl
                | false =>
                  have hb2 : (out != "bool") = true := by
                    show (!(out == "bool")) = true
                    rw [hbb]
                    rfl
                  rw [hb2] at hc
                  exact absurd rfl hc
              rw [eq_of_beq hob]
              decide
        · -- mixed inputs
          cases hns : ((d0, w0) :: rest).mapM
              (fun p => _respect_weak_type p.1 p.2) with
          | error e =>
            rw [hns] at h
            simp only [except_error_bind] at h
            cases h
          | ok ns =>
            rw [hns] at h
            simp only [except_ok_bind] at h
            cases hlub : _least_upper_bound (pySet ns) with
            | error e =>
              rw [hlub] at h
              simp only [except_error_bind] at h
              cases h
            | ok out =>
              rw [hlub] at h
              simp only [except_ok_bind, except_pure_eq_ok] at h
              split at h
              · exact resolve_ok_not_weak _ _ _ h
              · rename_i hc
                have hv : out = v := Except.ok.inj h
                subst hv
                by_cases hob : out = "bool"
                · rw [hob]
                  decide
                · have hbne : (out != "bool") = true := bne_iff_ne.mpr hob
                  rw [hbne, Bool.true_and] at hc
                  have hcont : WEAK_TYPES.contains out = false := by
                    cases hcc : WEAK_TYPES.contains out with
                    | false => rfl
                    | true =>
                      rw [hcc] at hc
                      exact absurd rfl hc
                  intro hm
                  rw [(contains_iff_mem _ _).mpr hm] at hcont
                  cases hcont

/-- C10: whenever `result_type` returns normally (for any backend defaults
and any ambient default float dtype), the returned value is a concrete dtype
name and never one of the three weak sentinels "int", "float", "complex";
and the weak resolver sends "bfloat16" to the float dtype of the requested
precision, not to bool, despite its leading letter. -/
theorem C10_result_type_never_weak :
    (∀ (intD fltD : String), ∀ fx ∈ FLOAT_TYPES,
      ∀ (args : List (Option PyValue)) (v : String),
      result_type intD fltD fx args = .ok v → v ∉ WEAK_TYPES) ∧
    (∀ p ∈ ["16", "32", "64"],
      _resolve_weak_type "bfloat16" p = .ok ("float" ++ p)) := by
  constructor
  · intro intD fltD fx hfx args v h
    unfold result_type at h
    split at h
    · have hv : fx = v := Except.ok.inj h
      have hfa : fx ∈ ALLOWED_DTYPES := by
        fin_cases hfx <;> decide
      exact hv ▸ allowed_not_weak fx hfa
    · unfold _lattice_result_type at h
      cases hm : (args.map (fun arg =>
          arg.getD (.dtypeName fx))).mapM
          (_dtype_and_weaktype intD fltD) with
      | error e =>
        rw [hm] at h
        simp only [except_error_bind] at h
        cases h
      | ok pairs =>
        rw [hm] at h
        simp only [except_ok_bind] at h
        exact pairs_result_not_weak fx pairs
          (mapM_classify_strong_allowed intD fltD _ pairs hm) v h
  · decide

/-- Witness for C10 at concrete inputs. -/
theorem C10_result_type_never_weak_witness :
    ("float32" : String) ∈ FLOAT_TYPES ∧
    result_type "int32" "float32" "float32"
      [some .pyIntClass, some .pyFloatClass] = .ok "float32" ∧
    ("float32" : String) ∉ WEAK_TYPES ∧
    ("32" : String) ∈ ["16", "32", "64"] ∧
    _resolve_weak_type "bfloat16" "32" = .ok ("float" ++ "32") :=
  ⟨by decide, by decide,
   C10_result_type_never_weak.1 "int32" "float32" "float32" (by decide)
     [some .pyIntClass, some .pyFloatClass] "float32" (by decide),
   by decide,
   C10_result_type_never_weak.2 "32" (by decide)⟩

/-- C4: the least-upper-bound solver fails with an unknown-dtype error naming
the first unrecognized node when some input has no closure entry; with the
fast path empty, zero candidates dominating the common-upper-bound set give
a no-promotion-path error listing the input nodes, and two or more give an
ill-formed-lattice error; and every non-error run of the solver on the
concrete table returns the unique dominating candidate. -/
theorem C4_lub_error_taxonomy :
    (∀ (tbl : List (String × List String)) (nodes : List String) (d : String),
      firstUnknown tbl nodes = some d →
      _least_upper_bound_over tbl nodes = .error (.unknownDtype d)) ∧
    (∀ (tbl : List (String × List String)) (nodes : List String),
      firstUnknown tbl nodes = none → lubN nodes ≠ [] →
      lubCandidates tbl nodes = [] →
      _least_upper_bound_over tbl nodes = .error (.noPromotionPath nodes)) ∧
    (∀ (tbl : List (String × List String)) (nodes : List String),
      firstUnknown tbl nodes = none → lubN nodes ≠ [] →
      lubFast tbl nodes = [] → 2 ≤ (lubCandidates tbl nodes).length →
      _least_upper_bound_over tbl nodes =
        .error (.illFormedLattice nodes (lubCandidates tbl nodes))) ∧
    (∀ (nodes : List String) (c : String),
      _least_upper_bound nodes = .ok c →
      c ∈ lubCandidates LATTICE_UPPER_BOUNDS nodes ∧
      ∀ c' ∈ lubCandidates LATTICE_UPPER_BOUNDS nodes, c' = c) := by
  refine ⟨?_, ?_, ?_, ?_⟩
  · intro tbl nodes d h
    unfold _least_upper_bound_over
    rw [h]
  · intro tbl nodes hfu hne hcand
    have hfast : lubFast tbl nodes = [] := by
      cases hf : lubFast tbl nodes with
      | nil => rfl
      | cons a t =>
        have ha : a ∈ lubCandidates tbl nodes :=
          lubFast_subset_candidates tbl nodes a
            (by rw [hf]; exact List.mem_cons_self a t)
        rw [hcand] at ha
        cases ha
    have hset : lubSet tbl nodes = [] := by
      unfold lubSet
      rw [hfast, hcand]
      rfl
    unfold _least_upper_bound_over
    rw [hfu, if_neg (by simpa using hne), hset]
  · intro tbl nodes hfu hne hfast hlen
    have hset : lubSet tbl nodes = lubCandidates tbl nodes := by
      unfold lubSet
      rw [hfast]
      rfl
    unfold _least_upper_bound_over
    rw [hfu, if_neg (by simpa using hne), hset]
    cases hc : lubCandidates tbl nodes with
    | nil =>
      rw [hc] at hlen
      simp at hlen
    | cons a t =>
      cases t with
      | nil =>
        rw [hc] at hlen
        simp at hlen
      | cons b t2 => rfl
  · intro nodes c h
    unfold _least_upper_bound _least_upper_bound_over at h
    cases hfu : firstUnknown LATTICE_UPPER_BOUNDS nodes with
    | some d =>
      rw [hfu] at h
      cases h
    | none =>
      rw [hfu] at h
      by_cases hemp : (lubN nodes).isEmpty = true
      · rw [if_pos hemp] at h
        cases h
      · rw [if_neg hemp] at h
        cases hset : lubSet LATTICE_UPPER_BOUNDS nodes with
        | nil =>
          rw [hset] at h
          cases h
        | cons c1 t =>
          cases t with
          | cons c2 t2 =>
            rw [hset] at h
            cases h
          | nil =>
            rw [hset] at h
            have hc1 : c1 = c := by
              injection h
            subst hc1
            by_cases hf : (lubFast LATTICE_UPPER_BOUNDS nodes).isEmpty = true
            · unfold lubSet at hset
              rw [if_pos hf] at hset
              constructor
              · rw [hset]
                exact List.mem_cons_self _ _
              · intro c' hc'
                rw [hset] at hc'
                simpa using hc'
            · unfold lubSet at hset
              rw [if_neg hf] at hset
              have hcmem : c1 ∈ lubCandidates LATTICE_UPPER_BOUNDS nodes :=
                lubFast_subset_candidates _ _ _
                  (by rw [hset]; exact List.mem_cons_self _ _)
              refine ⟨hcmem, ?_⟩
              intro c' hc'
              rw [lubCandidates, List.mem_filter] at hcmem hc'
              obtain ⟨hcub1, hall1⟩ := hcmem
              obtain ⟨hcub2, hall2⟩ := hc'
              rw [List.all_eq_true] at hall1 hall2
              have h1 : c' ∈ closureOf c1 :=
                (contains_iff_mem _ _).mp (hall1 c' hcub2)
              have h2 : c1 ∈ closureOf c' :=
                (contains_iff_mem _ _).mp (hall2 c1 hcub1)
              cases hl : lubN nodes with
              | nil => exact absurd (by rw [hl]; rfl) hemp
              | cons n0 ns =>
                have hn0 : n0 ∈ lubN nodes := by
                  rw [hl]
                  exact List.mem_cons_self _ _
                have hnone : ¬ ubLookup LATTICE_UPPER_BOUNDS n0 = none := by
                  rw [firstUnknown, List.find?_eq_none] at hfu
                  simpa using hfu n0 hn0
                obtain ⟨l0, hl0⟩ :
                    ∃ l0, ubLookup LATTICE_UPPER_BOUNDS n0 = some l0 := by
                  cases hu : ubLookup LATTICE_UPPER_BOUNDS n0 with
                  | none => exact absurd hu hnone
                  | some l0 => exact ⟨l0, rfl⟩
                have hmemtbl := ubLookup_mem_table _ _ _ hl0
                have hkeys : ∀ x ∈ lubCUB LATTICE_UPPER_BOUNDS nodes,
                    x ∈ latticeKeys := by
                  intro x hx
                  have hxl := mem_lubCUB_closure _ _ x hx n0 hn0
                  rw [hl0] at hxl
                  exact table_values_sub_keys _ hmemtbl x hxl
                exact closure_antisym c' (hkeys c' hcub2) c1
                  (hkeys c1 hcub1) h1 h2

/-- Witness for C4 at concrete inputs: an unknown node, a two-node table with
no common upper bound, a deliberately ill-formed table with two mutually
dominating candidates, and an ordinary successful promotion. -/
theorem C4_lub_error_taxonomy_witness :
    _least_upper_bound_over LATTICE_UPPER_BOUNDS ["zzz"] =
      .error (.unknownDtype "zzz") ∧
    _least_upper_bound_over [("a", ["a"]), ("b", ["b"])] ["a", "b"] =
      .error (.noPromotionPath ["a", "b"]) ∧
    _least_upper_bound_over
        [("a", ["a", "x", "y"]), ("b", ["b", "x", "y"]),
         ("x", ["x", "y"]), ("y", ["y", "x"])] ["a", "b"] =
      .error (.illFormedLattice ["a", "b"]
        (lubCandidates
          [("a", ["a", "x", "y"]), ("b", ["b", "x", "y"]),
           ("x", ["x", "y"]), ("y", ["y", "x"])] ["a", "b"])) ∧
    "float32" ∈ lubCandidates LATTICE_UPPER_BOUNDS ["int32", "float32"] :=
  ⟨C4_lub_error_taxonomy.1 LATTICE_UPPER_BOUNDS ["zzz"] "zzz" (by decide),
   C4_lub_error_taxonomy.2.1 [("a", ["a"]), ("b", ["b"])] ["a", "b"]
     (by decide) (by decide) (by decide),
   C4_lub_error_taxonomy.2.2.1
     [("a", ["a", "x", "y"]), ("b", ["b", "x", "y"]),
      ("x", ["x", "y"]), ("y", ["y", "x"])] ["a", "b"]
     (by decide) (by decide) (by decide) (by decide),
   (C4_lub_error_taxonomy.2.2.2 ["int32", "float32"] "float32" (by decide)).1⟩

/-- C5: on the vocabulary (all eighteen lattice nodes), the least upper bound
of a singleton is the node itself, and the least upper bound is commutative;
consequently swapping the two arguments of the promotion body never changes
its result (or which error it raises), for every weak-flag combination and
every ambient default float dtype. -/
theorem C5_lub_singleton_comm :
    (∀ n ∈ latticeKeys, _least_upper_bound [n] = .ok n) ∧
    (∀ a ∈ latticeKeys, ∀ b ∈ latticeKeys,
      _least_upper_bound [a, b] = _least_upper_bound [b, a]) ∧
    (∀ d1 ∈ ALLOWED_DTYPES, ∀ d2 ∈ ALLOWED_DTYPES,
      ∀ w1 ∈ [false, true], ∀ w2 ∈ [false, true],
      ∀ fx ∈ ["bfloat16", "float16", "float32", "float64"],
      _lattice_result_type_pairs fx [(d1, w1), (d2, w2)] =
        _lattice_result_type_pairs fx [(d2, w2), (d1, w1)]) := by
  refine ⟨by decide, by decide, by decide⟩

/-- Witness for C5 at concrete inputs. -/
theorem C5_lub_singleton_comm_witness :
    _least_upper_bound ["bfloat16"] = .ok "bfloat16" ∧
    _least_upper_bound ["uint64", "int64"] =
      _least_upper_bound ["int64", "uint64"] ∧
    _lattice_result_type_pairs "float32" [("int32", false), ("uint8", true)] =
      _lattice_result_type_pairs "float32" [("uint8", true), ("int32", false)] :=
  ⟨C5_lub_singleton_comm.1 "bfloat16" (by decide),
   C5_lub_singleton_comm.2.1 "uint64" (by decide) "int64" (by decide),
   C5_lub_singleton_comm.2.2 "int32" (by decide) "uint8" (by decide)
     false (by decide) true (by decide) "float32" (by decide)⟩

/-- C8: `result_type` with zero inputs returns exactly the ambient default
floating-point dtype, and a `None` input is substituted with the ambient
default before classification, so prepending `None` is the same as
prepending the default dtype. -/
theorem C8_result_type_none_default :
    (∀ intD fltD fx : String, result_type intD fltD fx [] = .ok fx) ∧
    (∀ (intD fltD fx : String) (xs : List (Option PyValue)),
      result_type intD fltD fx (none :: xs) =
        result_type intD fltD fx (some (.dtypeName fx) :: xs)) :=
  ⟨fun _ _ _ => rfl, fun _ _ _ _ => rfl⟩

/-- C3 counterexample: the claim asserts that for every covering edge n→m
the inclusion UpperBoundClosure(m) ⊆ UpperBoundClosure(n) is false; but for
the edge bool→weak-int recorded in the lattice, the closure of the upper
neighbor "int" is contained in the closure of "bool" (as the claim's own
second half, closure(n) ⊇ closure(m) together with n itself, forces). -/
theorem C3_counterexample :
    ("bool", ["int"]) ∈ _type_promotion_lattice ∧
    "int" ∈ latticeNeighbors _type_promotion_lattice "bool" ∧
    (closureOf "int").all (fun x => (closureOf "bool").contains x) = true := by
  decide

/-- C3 (amended): for every node n, n is in its own upper-bound closure; for
every covering edge n→m the reverse inclusion closure(n) ⊆ closure(m) is
false — rather closure(n) ⊇ closure(m) together with n itself; and whenever a node's own
name enters its closure through an iteration of the closure loop, the
builder fails with a cycle error naming that node. -/
theorem C3_closure_invariants :
    (∀ n ∈ latticeKeys, (closureOf n).contains n = true) ∧
    (∀ n ∈ latticeKeys, ∀ m ∈ latticeNeighbors _type_promotion_lattice n,
      (closureOf n).all (fun x => (closureOf m).contains x) = false ∧
      (closureOf m).all (fun x => (closureOf n).contains x) = true ∧
      (closureOf n).contains n = true) ∧
    (∀ (lat : List (String × List String)) (n : String)
      (ub : List String) (fuel : Nat),
      (closureStep lat ub).contains n = true →
      closureLoop lat n ub (fuel + 1) = .error (.cycleDetected n)) := by
  refine ⟨by decide, by decide, ?_⟩
  intro lat n ub fuel h
  unfold closureLoop
  simp [h]
  intro hn
  exact absurd (by simpa using h) hn

/-- Witness for C3 (amended) at concrete inputs. -/
theorem C3_closure_invariants_witness :
    ((closureOf "uint8").contains "uint8" = true) ∧
    ((closureOf "uint8").all (fun x => (closureOf "int16").contains x)
      = false) ∧
    ((closureStep [("a", ["a"])] ["a"]).contains "a" = true ∧
      closureLoop [("a", ["a"])] "a" ["a"] 1 = .error (.cycleDetected "a")) :=
  ⟨C3_closure_invariants.1 "uint8" (by decide),
   (C3_closure_invariants.2.1 "uint8" (by decide) "int16" (by decide)).1,
   by decide,
   C3_closure_invariants.2.2 [("a", ["a"])] "a" ["a"] 0 (by decide)⟩

end KerasDtypes

namespace KerasDtypePolicies

/-- C9: `get` dispatches on the identifier: `None` returns the process-wide
default policy; an existing policy instance is returned unchanged; a dict
descriptor is delegated to the external deserializer; a string containing
the substring "int8" (including "uint8") builds a quantized policy; any
other string builds a float policy; any other value is standardized and
wrapped in a float policy, and a failed standardization raises an
invalid-argument error naming the received identifier. -/
theorem C9_policy_get_dispatch :
    (get .noneId = .ok .defaultPolicy) ∧
    (∀ p, get (.instanceOf p) = .ok p) ∧
    (∀ d, get (.dictDescriptor d) = .ok (.deserialized d)) ∧
    (∀ s, KerasDtypes.strContains s "int8" = true →
      get (.strId s) = .ok (.quantized s)) ∧
    (get (.strId "uint8") = .ok (.quantized "uint8")) ∧
    (∀ s, KerasDtypes.strContains s "int8" = false →
      get (.strId s) = .ok (.float s)) ∧
    (∀ r d, get (.otherValue r (some d)) = .ok (.float d)) ∧
    (∀ r, get (.otherValue r none) = .error (.invalidArgument r)) := by
  refine ⟨rfl, fun _ => rfl, fun _ => rfl, ?_, by decide, ?_,
    fun _ _ => rfl, fun _ => rfl⟩
  · intro s h
    simp [get, h]
  · intro s h
    simp [get, h]

/-- Witness for C9 at concrete inputs. -/
theorem C9_policy_get_dispatch_witness :
    KerasDtypes.strContains "int8_from_float32" "int8" = true ∧
    get (.strId "int8_from_float32") = .ok (.quantized "int8_from_float32") ∧
    KerasDtypes.strContains "mixed_bfloat16" "int8" = false ∧
    get (.strId "mixed_bfloat16") = .ok (.float "mixed_bfloat16") :=
  ⟨by decide,
   C9_policy_get_dispatch.2.2.2.1 "int8_from_float32" (by decide),
   by decide,
   C9_policy_get_dispatch.2.2.2.2.2.1 "mixed_bfloat16" (by decide)⟩

end KerasDtypePolicies
